import Mathlib

/-!
Verification development for the dynamic-selective hyper-heuristic evolution
engine (rosomaxa) and the solution checker (here). Source files embedded:
  - rosomaxa/src/hyper/dynamic_selective.rs
  - rosomaxa/src/heuristics/evolution/mod.rs
  - here/src/checker/jobs.rs
Floating-point values of the source are embedded as rationals; all literals
appearing in the source (0.5, 2.0, 1.001, 0.01, 1000, 100, 10, -1) are exact
in this embedding.
-/

namespace Rosomaxa

/-- Embeds `compare_floats` from rosomaxa utils: three-way comparison of two
numeric values, producing an `Ordering`. -/
def compareQ (a b : ℚ) : Ordering :=
  if a < b then .lt else if b < a then .gt else .eq

/-- Embeds Rust `f64::clamp(lo, hi)`: returns `lo` when below, `hi` when
above, the value itself otherwise. -/
def clampQ (x lo hi : ℚ) : ℚ :=
  if x < lo then lo else if x > hi then hi else x

/-- Embeds `MedianRatio` (dynamic_selective.rs, lines 140-143): a wrapper over
the ratio of the last action duration to the running median of durations. -/
structure MedianRatio where
  ratio : ℚ
deriving Repr

/-- Embeds `Default` for `MedianRatio`: a zero ratio. -/
def MedianRatio.default : MedianRatio := ⟨0⟩

/-- Embeds the custom `PartialEq` impl for `MedianRatio` (lines 151-155): any
two ratios compare equal. -/
def MedianRatio.beq (_ _ : MedianRatio) : Bool := true

/-- Embeds the custom `Hash` impl for `MedianRatio` (lines 145-149): the
hasher receives the constant word 0 regardless of the ratio. The hasher state
is modelled as the list of words fed to it. -/
def MedianRatio.hashTrace (_ : MedianRatio) (state : List Nat) : List Nat :=
  state ++ [0]

/-- Embeds `MedianRatio::eval` (dynamic_selective.rs, lines 159-169): clamp
the ratio to [0.5, 2.0]; below 1.001 the value passes through, otherwise a
zero value becomes -2*ratio, a negative value is multiplied by the ratio and
a positive value is divided by it. -/
def MedianRatio.eval (m : MedianRatio) (value : ℚ) : ℚ :=
  let ratio := clampQ m.ratio (1/2) 2
  if ratio < 1001/1000 then value
  else
    match compareQ value 0 with
    | .eq => -2 * ratio
    | .lt => value * ratio
    | .gt => value / ratio

/-- Embeds the `SearchState` enum (dynamic_selective.rs, lines 172-186): six
variants, each carrying a `MedianRatio` payload. -/
inductive SearchState where
  | BestKnown (m : MedianRatio)
  | Diverse (m : MedianRatio)
  | BestMajorImprovement (m : MedianRatio)
  | BestMinorImprovement (m : MedianRatio)
  | DiverseImprovement (m : MedianRatio)
  | Stagnated (m : MedianRatio)
deriving Repr

/-- The ratio payload carried by a search state. -/
def SearchState.ratioOf : SearchState → MedianRatio
  | .BestKnown m => m
  | .Diverse m => m
  | .BestMajorImprovement m => m
  | .BestMinorImprovement m => m
  | .DiverseImprovement m => m
  | .Stagnated m => m

/-- The variant discriminant of a search state, as the Rust compiler assigns
it to the derived `Hash`/`PartialEq` machinery. -/
def SearchState.discriminant : SearchState → Nat
  | .BestKnown _ => 0
  | .Diverse _ => 1
  | .BestMajorImprovement _ => 2
  | .BestMinorImprovement _ => 3
  | .DiverseImprovement _ => 4
  | .Stagnated _ => 5

/-- Embeds the derived `PartialEq` for `SearchState` (line 172): two values
are equal when they are the same variant and their payloads are equal under
`MedianRatio::eq`. -/
def SearchState.beq : SearchState → SearchState → Bool
  | .BestKnown a, .BestKnown b => a.beq b
  | .Diverse a, .Diverse b => a.beq b
  | .BestMajorImprovement a, .BestMajorImprovement b => a.beq b
  | .BestMinorImprovement a, .BestMinorImprovement b => a.beq b
  | .DiverseImprovement a, .DiverseImprovement b => a.beq b
  | .Stagnated a, .Stagnated b => a.beq b
  | _, _ => false

/-- Embeds the derived `Hash` for `SearchState` (line 172): the hasher
receives the variant discriminant, then whatever the payload hashes. -/
def SearchState.hashTrace (s : SearchState) (state : List Nat) : List Nat :=
  s.ratioOf.hashTrace (state ++ [s.discriminant])

/-- Embeds `State::reward` for `SearchState` (dynamic_selective.rs, lines
191-200): the per-variant base value passed through `MedianRatio::eval`. -/
def SearchState.reward : SearchState → ℚ
  | .BestKnown m => m.eval 0
  | .Diverse m => m.eval 0
  | .BestMajorImprovement m => m.eval 1000
  | .BestMinorImprovement m => m.eval 100
  | .DiverseImprovement m => m.eval 10
  | .Stagnated m => m.eval (-1)

/-- The base reward of each variant as the specification tabulates it:
BestKnown 0, Diverse 0, BestMajorImprovement 1000, BestMinorImprovement 100,
DiverseImprovement 10, Stagnated -1. -/
def baseReward : SearchState → ℚ
  | .BestKnown _ => 0
  | .Diverse _ => 0
  | .BestMajorImprovement _ => 1000
  | .BestMinorImprovement _ => 100
  | .DiverseImprovement _ => 10
  | .Stagnated _ => -1

/-- The modulation rule exactly as the specification words it, applied to a
base reward and the already clamped ratio r: if r < 1.001 the base passes
through; else a zero base gives -2*r, a negative base gives base*r, and a
positive base gives base/r. -/
def specModulate (base r : ℚ) : ℚ :=
  if r < 1001/1000 then base
  else if base = 0 then -2 * r
  else if base < 0 then base * r
  else base / r

/-- The environment a search agent observes while classifying a transition:
the objective total order, the first element of `population.ranked()` (the
best known solution, if any), the running improvement statistic, and the
relative-distance function over sub-objective fitness vectors.
`relativeDistance` abstracts `relative_distance` from rosomaxa algorithms
math (its source lies outside the embedded files); the classifier only
consumes its comparison against the 0.01 threshold. -/
structure ClassifyEnv (S : Type) where
  totalOrder : S → S → Ordering
  rankedFirst : Option S
  improvement1000Ratio : ℚ
  relativeDistance : S → S → ℚ

/-- Embeds `compare_to_best` (dynamic_selective.rs, lines 322-334): compare
the solution to the first ranked solution, or return `Less` when the
population has no ranked solution. -/
def compareToBest {S : Type} (env : ClassifyEnv S) (solution : S) : Ordering :=
  match env.rankedFirst with
  | some bestKnown => env.totalOrder solution bestKnown
  | none => Ordering.lt

/-- Embeds the agent construction in `DynamicSelective::search` (lines
63-66): the initial state is `Diverse` when the solution compares `Greater`
to the best, `BestKnown` otherwise; the payload is the default ratio. -/
def initialAgentState {S : Type} (env : ClassifyEnv S) (solution : S) : SearchState :=
  match compareToBest env solution with
  | Ordering.gt => SearchState.Diverse MedianRatio.default
  | _ => SearchState.BestKnown MedianRatio.default

/-- Embeds the state classification in `SearchAgent::take_action`
(dynamic_selective.rs, lines 260-294): match on the pair of comparisons to
the old solution and to the best; on a new best, the significance flag is
`improvement_1000_ratio < 0.01` when there is no ranked best and
`relative_distance(best, new) > 0.01` otherwise. -/
def classifyState {S : Type} (env : ClassifyEnv S) (original newSolution : S)
    (ratio : MedianRatio) : SearchState :=
  let compareToOld := env.totalOrder newSolution original
  let cmpBest := compareToBest env newSolution
  match compareToOld, cmpBest with
  | _, Ordering.lt =>
      let isSignificantChange :=
        match env.rankedFirst with
        | none => decide (env.improvement1000Ratio < 1/100)
        | some best => decide (env.relativeDistance best newSolution > 1/100)
      if isSignificantChange then SearchState.BestMajorImprovement ratio
      else SearchState.BestMinorImprovement ratio
  | Ordering.lt, _ => SearchState.DiverseImprovement ratio
  | _, _ => SearchState.Stagnated ratio

/-- The significance flag exactly as the claim words it: either the
population has no best solution and the improvement statistic is below 0.01,
or the relative distance between the fitness vectors of the new and best
solutions exceeds 0.01. -/
def significanceSpec {S : Type} (env : ClassifyEnv S) (newSolution : S) : Bool :=
  (env.rankedFirst.isNone && decide (env.improvement1000Ratio < 1/100)) ||
  (match env.rankedFirst with
   | some best => decide (env.relativeDistance best newSolution > 1/100)
   | none => false)

/-- The classification exactly as the specification words it: on `cmp_best`
Less the significance flag picks major versus minor best improvement; else
`cmp_old` Less gives a diverse improvement; else the state is stagnated. -/
def classifyStateSpec {S : Type} (env : ClassifyEnv S) (original newSolution : S)
    (ratio : MedianRatio) : SearchState :=
  let cmpOld := env.totalOrder newSolution original
  let cmpBest := compareToBest env newSolution
  if cmpBest = Ordering.lt then
    if significanceSpec env newSolution then SearchState.BestMajorImprovement ratio
    else SearchState.BestMinorImprovement ratio
  else if cmpOld = Ordering.lt then SearchState.DiverseImprovement ratio
  else SearchState.Stagnated ratio

/-- A concrete classification environment over the unit solution type with
an empty ranked sequence, used to instantiate general statements. -/
def emptyRankedEnv : ClassifyEnv Unit :=
  { totalOrder := fun _ _ => Ordering.eq
    rankedFirst := none
    improvement1000Ratio := 0
    relativeDistance := fun _ _ => 0 }

/-- Action estimates of one state, as the list of (action index, estimated
value) pairs held by `ActionEstimates` in the MDP module. -/
abbrev ActionEstimatesData := List (Nat × ℚ)

/-- Embeds `ActionEstimates::max_estimate`: the entry with the maximal
estimated value, or none when the estimates are empty. -/
def maxEstimate (data : ActionEstimatesData) : Option (Nat × ℚ) :=
  data.foldl
    (fun acc p =>
      match acc with
      | none => some p
      | some q => if q.2 < p.2 then some p else some q)
    none

/-- The estimate-table key of the `BestKnown` state: state keys compare by
variant only, so the discriminant identifies the slot. -/
def bestKnownKey : Nat := (SearchState.BestKnown MedianRatio.default).discriminant

/-- The estimate-table key of the `Diverse` state. -/
def diverseKey : Nat := (SearchState.Diverse MedianRatio.default).discriminant

/-- Embeds `try_exchange_estimates` (dynamic_selective.rs, lines 301-320):
when the maximal `BestKnown` estimate is not above zero and the maximal
`Diverse` estimate is above zero, the `Diverse` action estimates are copied
into the `BestKnown` slot; otherwise the table is untouched. The simulator
estimate table is modelled as a map from state discriminant to optional
action estimates. -/
def tryExchangeEstimates (m : Nat → Option ActionEstimatesData) :
    Nat → Option ActionEstimatesData :=
  let bestKnownMax := (m bestKnownKey).bind maxEstimate
  let diverseMax := (m diverseKey).bind maxEstimate
  let isBestKnownStagnation : Bool :=
    bestKnownMax.elim false (fun p => decide (compareQ p.2 0 ≠ Ordering.gt))
  let isDiverseImprovement : Bool :=
    diverseMax.elim false (fun p => decide (compareQ p.2 0 = Ordering.gt))
  if isBestKnownStagnation && isDiverseImprovement then
    fun k => if k = bestKnownKey then m diverseKey else m k
  else m

/-- The exchange condition exactly as the claim words it: the maximal
action-value estimate of `BestKnown` exists and is at most zero, and the
maximal action-value estimate of `Diverse` exists and is above zero. -/
def exchangeCond (m : Nat → Option ActionEstimatesData) : Bool :=
  (match (m bestKnownKey).bind maxEstimate with
   | some p => decide (p.2 ≤ 0)
   | none => false) &&
  (match (m diverseKey).bind maxEstimate with
   | some p => decide (0 < p.2)
   | none => false)

end Rosomaxa

namespace Evolution

/-- The capabilities `RunSimple::run` consumes (evolution/mod.rs, lines
51-88), modelled as pure functions over an abstract context state C holding
the population: termination check, environment quota poll, parent selection,
heuristic search, `add_all` returning the updated context and the improved
flag, population size, the combined telemetry/population `on_generation`
notification, the ranked sequence, deep copy, the desired amount of returned
solutions and the telemetry metrics taken at the end. -/
structure RunConfig (C S : Type) where
  isTermination : C → Bool
  quotaIsReached : C → Bool
  select : C → List S
  search : C → List S → List S
  addAll : C → List S → C × Bool
  popSize : C → Nat
  onGeneration : C → Bool → C
  ranked : C → List S
  deepCopy : S → S
  desiredAmount : Nat
  takeMetrics : Option Nat

/-- Embeds `should_stop` (evolution/mod.rs, lines 191-201): termination or
external quota reached. A configuration without a quota instantiates
`quotaIsReached` to the constantly false function. -/
def shouldStop {C S : Type} (cfg : RunConfig C S) (c : C) : Bool :=
  cfg.isTermination c || cfg.quotaIsReached c

/-- Embeds `should_add_solution` (evolution/mod.rs, lines 203-216): add when
the population is empty or the quota is not reached. -/
def shouldAddSolution {C S : Type} (cfg : RunConfig C S) (c : C) : Bool :=
  decide (cfg.popSize c = 0) || !cfg.quotaIsReached c

/-- Embeds the body of one generation of `RunSimple::run` (evolution/mod.rs,
lines 58-66): select parents, run the heuristic search, then add the
offspring through `add_all` when `should_add_solution` allows it, otherwise
keep the context and report no improvement. -/
def generationStep {C S : Type} (cfg : RunConfig C S) (c : C) : C × Bool :=
  let parents := cfg.select c
  let offspring := cfg.search c parents
  if shouldAddSolution cfg c then cfg.addAll c offspring else (c, false)

/-- Embeds the generation loop of `RunSimple::run` (evolution/mod.rs, lines
55-75) with explicit fuel: while `should_stop` is false, run one generation
and notify `on_generation` with the improved flag; return the final context
when the loop exits, or none when the fuel runs out first. -/
def runLoop {C S : Type} (cfg : RunConfig C S) : Nat → C → Option C
  | 0, _ => none
  | fuel+1, c =>
    if shouldStop cfg c then some c
    else
      let step := generationStep cfg c
      runLoop cfg fuel (cfg.onGeneration step.1 step.2)

/-- Embeds `RunSimple::run` (evolution/mod.rs, lines 51-88): run the
generation loop, then return Ok with up to `desired_amount` deep-copied
ranked solutions and the telemetry metrics. -/
def runSimple {C S : Type} (cfg : RunConfig C S) (fuel : Nat) (c : C) :
    Option (Except String (List S × Option Nat)) :=
  (runLoop cfg fuel c).map (fun cF =>
    Except.ok (((cfg.ranked cF).map cfg.deepCopy).take cfg.desiredAmount, cfg.takeMetrics))

/-- Embeds the `initial` part of the evolution configuration: pre-supplied
individuals, the target seed count, the weights of the initial operators
(the operators themselves are abstracted by `createSolution` below) and the
fraction of the termination estimate reserved for seeding. -/
structure InitialConfig (S : Type) where
  individuals : List S
  maxSize : Nat
  operatorWeights : List ℚ
  quota : ℚ

/-- The full configuration `EvolutionSimulator` consumes: the initial
section, the run capabilities, single-solution `add`, the termination
estimate, the weighted random pick over operator weights and the initial
operator invocation `create`. -/
structure SimulatorConfig (C S : Type) where
  initial : InitialConfig S
  runCfg : RunConfig C S
  addOne : C → S → C
  estimate : C → ℚ
  weightedPick : C → List ℚ → Nat
  createSolution : Nat → C → S

/-- Embeds `EvolutionSimulator::new` (evolution/mod.rs, lines 112-118): fail
with a configuration error when the list of initial operators is empty,
otherwise return the simulator holding the configuration. -/
def simulatorNew {C S : Type} (cfg : SimulatorConfig C S) :
    Except String (SimulatorConfig C S) :=
  if cfg.initial.operatorWeights = [] then
    Except.error "at least one initial method has to be specified"
  else Except.ok cfg

/-- Embeds the seeding from supplied individuals (evolution/mod.rs, lines
127-138): take the first `max_size` individuals and add each unless
`should_add_solution` forbids it. -/
def seedSupplied {C S : Type} (cfg : SimulatorConfig C S) (c : C) : C :=
  (cfg.initial.individuals.take cfg.initial.maxSize).foldl
    (fun c s => if shouldAddSolution cfg.runCfg c then cfg.addOne c s else c) c

/-- Embeds one index of the initial-solution building loop (evolution/mod.rs,
lines 145-179): once stopped, stay stopped; stop when the initial quota or
overall termination is reached; otherwise pick the operator (deterministic
for the first indices, weighted after), build a solution and add it unless
`should_add_solution` forbids it. -/
def seedStep {C S : Type} (cfg : SimulatorConfig C S) (st : C × Bool) (idx : Nat) :
    C × Bool :=
  if st.2 then st
  else
    let c := st.1
    let isOverallTermination := cfg.runCfg.isTermination c
    let isInitialQuotaReached := decide (cfg.estimate c > cfg.initial.quota)
    if isInitialQuotaReached || isOverallTermination then (c, true)
    else
      let operatorIdx :=
        if idx < cfg.initial.operatorWeights.length then idx
        else cfg.weightedPick c cfg.initial.operatorWeights
      let solution := cfg.createSolution operatorIdx c
      if shouldAddSolution cfg.runCfg c then (cfg.addOne c solution, false) else (c, false)

/-- Embeds the initial-solution building loop over the fixed index range
`population.size()..max_size` (evolution/mod.rs, line 145). -/
def seedBuild {C S : Type} (cfg : SimulatorConfig C S) (c : C) : C :=
  ((List.range' (cfg.runCfg.popSize c)
      (cfg.initial.maxSize - cfg.runCfg.popSize c)).foldl (seedStep cfg) (c, false)).1

/-- Embeds `EvolutionSimulator::run` (evolution/mod.rs, lines 122-188): seed
from supplied individuals, build the remainder, fire the initial
`on_generation` when the population is non-empty, then run the strategy. -/
def simulatorRun {C S : Type} (cfg : SimulatorConfig C S) (fuel : Nat) (c : C) :
    Option (Except String (List S × Option Nat)) :=
  let c1 := seedSupplied cfg c
  let c2 := seedBuild cfg c1
  let c3 := if cfg.runCfg.popSize c2 > 0 then cfg.runCfg.onGeneration c2 true else c2
  runSimple cfg.runCfg fuel c3

/-- A concrete run configuration over Nat contexts and Nat solutions that
terminates immediately with a two-element ranked population, used to
instantiate general statements. -/
def unitRunConfig : RunConfig Nat Nat :=
  { isTermination := fun _ => true
    quotaIsReached := fun _ => false
    select := fun _ => []
    search := fun _ _ => []
    addAll := fun c _ => (c, false)
    popSize := fun _ => 0
    onGeneration := fun c _ => c
    ranked := fun _ => [7, 3]
    deepCopy := id
    desiredAmount := 1
    takeMetrics := none }

/-- A concrete simulator configuration with zero `max_size`, one initial
operator and no supplied individuals. -/
def unitSimConfig : SimulatorConfig Nat Nat :=
  { initial := { individuals := [], maxSize := 0, operatorWeights := [1], quota := 1 }
    runCfg := unitRunConfig
    addOne := fun c _ => c + 1
    estimate := fun _ => 0
    weightedPick := fun _ _ => 0
    createSolution := fun _ _ => 0 }

end Evolution

namespace Checker

/-- Modelled from the spec: the activity record of `checker/models.rs` is not
among the embedded sources; the fields kept are exactly the ones
`checker/jobs.rs` reads — the optional job id, the activity type string and
the result of `get_demand()`. -/
structure ActivityInfo where
  jobId : Option String
  activityType : String
  demand : Except String (Option (List Int))

/-- Modelled from the spec: the stop record of `checker/models.rs` is not
among the embedded sources; the fields kept are the stop load vector and the
activities performed at the stop. -/
structure StopInfo where
  load : List Int
  activityList : List ActivityInfo

/-- Modelled from the spec: the vehicle metadata of `checker/models.rs` is
not among the embedded sources; only the vehicle id is read. -/
structure VehicleMeta where
  vehicleId : String

/-- Modelled from the spec: the tour record of `checker/models.rs` is not
among the embedded sources; the fields kept are the vehicle metadata and the
ordered stops. -/
structure TourInfo where
  vehicleMeta : VehicleMeta
  stops : List StopInfo

/-- Modelled from the spec: an unassigned-job record; only the job id is
read. -/
structure UnassignedJobInfo where
  jobId : String

/-- Modelled from the spec: the solution record of `checker/models.rs` is not
among the embedded sources; the fields kept are the tours, the unassigned
jobs and the problem job list (only its length is read). -/
structure SolutionInfo where
  tours : List TourInfo
  unassigned : List UnassignedJobInfo
  jobs : List String

/-- Modelled from the spec: `TourInfo::activities()` iterates the activities
of all stops of the tour in order. -/
def TourInfo.activityList (t : TourInfo) : List ActivityInfo :=
  (t.stops.map StopInfo.activityList).flatten

/-- Modelled from the spec: `TourInfo::first()` returns the first stop of
the tour, or an error for a tour without stops. -/
def TourInfo.first (t : TourInfo) : Except String StopInfo :=
  match t.stops with
  | [] => Except.error "Tour has no stops"
  | stop :: _ => Except.ok stop

/-- Hash-set insertion, modelling `HashSet::insert`: the set is kept as a
duplicate-free list, insertion appends an element not yet present. -/
def insertIfAbsent (l : List String) (x : String) : List String :=
  if x ∈ l then l else l ++ [x]

/-- The inner fold of `check_job_presence` over the activities of one tour
(checker/jobs.rs, lines 29-41): an activity with a job id already collected
in another tour is an error; otherwise the id joins the per-tour set. -/
def collectTourJobIds (outAcc : List String) (vehicleId : String) :
    List ActivityInfo → List String → Except String (List String)
  | [], inAcc => Except.ok inAcc
  | act :: rest, inAcc =>
    match act.jobId with
    | some jobId =>
        if jobId ∈ outAcc then
          Except.error ("Job " ++ jobId ++ " used second time in another tour: "
            ++ vehicleId)
        else collectTourJobIds outAcc vehicleId rest (insertIfAbsent inAcc jobId)
    | none => collectTourJobIds outAcc vehicleId rest inAcc

/-- Embeds `check_job_presence` (checker/jobs.rs, lines 25-68): collect the
distinct assigned job ids across all tours, extend them with the unassigned
job ids, and fail when their count differs from the problem job count. -/
def checkJobPresence (s : SolutionInfo) : Except String Unit := do
  let assigned ← s.tours.foldlM
    (fun outAcc tour => do
      let inAcc ← collectTourJobIds outAcc tour.vehicleMeta.vehicleId
        tour.activityList []
      pure (inAcc.foldl insertIfAbsent outAcc))
    ([] : List String)
  let assigned := s.unassigned.foldl (fun acc j => insertIfAbsent acc j.jobId) assigned
  if assigned.length < s.jobs.length then
    Except.error "Solution has less jobs than the problem"
  else if assigned.length > s.jobs.length then
    Except.error "Solution has more jobs than the problem"
  else Except.ok ()

/-- Modelled from the spec: `MultiDimensionalCapacity` addition and
subtraction (here extensions, not among the embedded sources) act
componentwise, treating missing components as zero. -/
def zipWithPad (f : Int → Int → Int) : List Int → List Int → List Int
  | [], ys => ys.map (fun y => f 0 y)
  | x :: xs, [] => f x 0 :: zipWithPad f xs []
  | x :: xs, y :: ys => f x y :: zipWithPad f xs ys

/-- Capacity addition. -/
def mdcAdd (a b : List Int) : List Int := zipWithPad (fun x y => x + y) a b

/-- Capacity subtraction. -/
def mdcSub (a b : List Int) : List Int := zipWithPad (fun x y => x - y) a b

/-- Embeds `check_stop_has_proper_demand_change` (checker/jobs.rs, lines
70-104): starting from the first stop load, every later stop load must equal
the previous load plus the total demand change of its activities (delivery
subtracts, pickup adds, anything else leaves the accumulator). -/
def checkStopDemand (tour : TourInfo) : Except String Unit := do
  let initial ← tour.first
  let _ ← (tour.stops.drop 1).foldlM
    (fun acc stop => do
      let totalDemand ← stop.activityList.foldlM
        (fun acc act => do
          let demandOpt ← act.demand
          let demand := demandOpt.getD [0]
          pure (match act.activityType with
                | "delivery" => mdcSub acc demand
                | "pickup" => mdcAdd acc demand
                | _ => acc))
        ([0] : List Int)
      let result := stop.load
      let expected := mdcAdd acc totalDemand
      if result = expected then pure result
      else Except.error "Stop load mismatch")
    initial.load
  pure ()

/-- The observable outcome of running a checker function: a normal Ok
return, a normal Err return, or a panic raised by an `unimplemented!()`
body. -/
inductive CheckOutcome where
  | ok
  | err (msg : String)
  | panicked
deriving Repr, DecidableEq

/-- Embeds the per-tour loop of `check_jobs` (checker/jobs.rs, lines 12-20):
for the first tour, run the stop-demand check; an error propagates as a
normal Err return, and on success control reaches
`check_activity_has_no_time_window_violation`, whose body is
`unimplemented!()` (line 107) and panics — later tours and the two ordering
checks are unreachable. An empty tour list returns Ok. -/
def checkToursLoop : List TourInfo → CheckOutcome
  | [] => CheckOutcome.ok
  | tour :: _ =>
    match checkStopDemand tour with
    | Except.error e => CheckOutcome.err e
    | Except.ok _ => CheckOutcome.panicked

/-- Embeds `check_jobs` (checker/jobs.rs, lines 9-23): job presence first, a
presence error returning as Err, then the per-tour loop. -/
def checkJobs (s : SolutionInfo) : CheckOutcome :=
  match checkJobPresence s with
  | Except.error e => CheckOutcome.err e
  | Except.ok _ => checkToursLoop s.tours

/-- The distinct unassigned job ids of a solution, in first-occurrence
order. -/
def distinctJobIds (s : SolutionInfo) : List String :=
  s.unassigned.foldl (fun acc j => insertIfAbsent acc j.jobId) []

/-- A concrete solution with one tour of two stops whose presence and
stop-demand checks both pass. -/
def exampleTour : TourInfo :=
  { vehicleMeta := { vehicleId := "v1" }
    stops :=
      [ { load := [1]
          activityList :=
            [ { jobId := none, activityType := "departure",
                demand := Except.ok none } ] }
      , { load := [0]
          activityList :=
            [ { jobId := some "j1", activityType := "delivery",
                demand := Except.ok (some [1]) } ] } ] }

/-- A concrete solution holding `exampleTour`, no unassigned jobs and a
single problem job. -/
def exampleSolution : SolutionInfo :=
  { tours := [exampleTour]
    unassigned := []
    jobs := ["j1"] }

end Checker

namespace Rosomaxa

/-- C2: for every search state (hence every ratio value), the reward equals
the base reward of its variant modulated with r = clamp(ratio, 0.5, 2.0):
if r < 1.001 the base, else -2*r for base 0, base*r for negative base and
base/r for positive base. -/
theorem reward_eq_specModulate (s : SearchState) :
    s.reward = specModulate (baseReward s) (clampQ s.ratioOf.ratio (1/2) 2) := by
  cases s with
  | BestKnown m =>
      simp only [SearchState.reward, MedianRatio.eval, baseReward, specModulate,
        SearchState.ratioOf, compareQ]
      norm_num
  | Diverse m =>
      simp only [SearchState.reward, MedianRatio.eval, baseReward, specModulate,
        SearchState.ratioOf, compareQ]
      norm_num
  | BestMajorImprovement m =>
      simp only [SearchState.reward, MedianRatio.eval, baseReward, specModulate,
        SearchState.ratioOf, compareQ]
      norm_num
  | BestMinorImprovement m =>
      simp only [SearchState.reward, MedianRatio.eval, baseReward, specModulate,
        SearchState.ratioOf, compareQ]
      norm_num
  | DiverseImprovement m =>
      simp only [SearchState.reward, MedianRatio.eval, baseReward, specModulate,
        SearchState.ratioOf, compareQ]
      norm_num
  | Stagnated m =>
      simp only [SearchState.reward, MedianRatio.eval, baseReward, specModulate,
        SearchState.ratioOf, compareQ]
      norm_num

lemma compareQ_eq_gt_iff (a b : ℚ) : compareQ a b = Ordering.gt ↔ b < a := by
  constructor
  · intro h
    by_contra hb
    unfold compareQ at h
    split_ifs at h
  · intro h
    have h1 : ¬ a < b := asymm h
    unfold compareQ
    rw [if_neg h1, if_pos h]

/-- C1: the transition classification of the search agent coincides, for
every environment, original and new solution and ratio, with the
classification the specification words: on `cmp_best` Less the significance
flag (no best and improvement ratio below 0.01, or relative distance above
0.01) picks major versus minor best improvement, else `cmp_old` Less gives
`DiverseImprovement`, else `Stagnated`. -/
theorem classifyState_eq_spec {S : Type} (env : ClassifyEnv S)
    (original newSolution : S) (ratio : MedianRatio) :
    classifyState env original newSolution ratio =
      classifyStateSpec env original newSolution ratio := by
  cases h : env.rankedFirst with
  | none =>
      cases ho : env.totalOrder newSolution original <;>
        simp [classifyState, classifyStateSpec, significanceSpec, compareToBest, h, ho]
  | some best =>
      cases hb : env.totalOrder newSolution best <;>
        cases ho : env.totalOrder newSolution original <;>
          simp [classifyState, classifyStateSpec, significanceSpec, compareToBest, h, ho, hb]

/-- C9: when the ranked sequence is empty, `compare_to_best` returns Less
for every solution, every agent starts in the `BestKnown` state, and every
transition is classified as a best improvement, major exactly when the
improvement statistic is below 0.01 — never `DiverseImprovement` and never
`Stagnated`. -/
theorem emptyRanked_forces_best {S : Type} (env : ClassifyEnv S)
    (h : env.rankedFirst = none) :
    (∀ s, compareToBest env s = Ordering.lt) ∧
    (∀ s, initialAgentState env s = SearchState.BestKnown MedianRatio.default) ∧
    (∀ original newSolution ratio,
      classifyState env original newSolution ratio =
        if env.improvement1000Ratio < 1/100 then SearchState.BestMajorImprovement ratio
        else SearchState.BestMinorImprovement ratio) := by
  have hcmp : ∀ s, compareToBest env s = Ordering.lt := by
    intro s
    unfold compareToBest
    rw [h]
  refine ⟨hcmp, ?_, ?_⟩
  · intro s
    unfold initialAgentState
    rw [hcmp s]
  · intro original newSolution ratio
    cases ho : env.totalOrder newSolution original <;>
      simp [classifyState, compareToBest, h, ho]

/-- Witness for C9 at a concrete environment with no ranked solution. -/
theorem emptyRanked_forces_best_witness :
    compareToBest emptyRankedEnv () = Ordering.lt ∧
    initialAgentState emptyRankedEnv () = SearchState.BestKnown MedianRatio.default ∧
    classifyState emptyRankedEnv () () ⟨1⟩ = SearchState.BestMajorImprovement ⟨1⟩ := by
  have h := emptyRanked_forces_best emptyRankedEnv rfl
  refine ⟨h.1 (), h.2.1 (), ?_⟩
  rw [h.2.2 () () ⟨1⟩]
  norm_num [emptyRankedEnv]

/-- C3: the estimate-exchange step replaces the `BestKnown` slot with a copy
of the `Diverse` action estimates exactly when the maximal `BestKnown`
estimate is at most zero and the maximal `Diverse` estimate is above zero;
every other entry, and the whole table in every other case, is unchanged. -/
theorem tryExchangeEstimates_spec (m : Nat → Option ActionEstimatesData) (k : Nat) :
    tryExchangeEstimates m k =
      if exchangeCond m = true ∧ k = bestKnownKey then m diverseKey else m k := by
  unfold tryExchangeEstimates exchangeCond
  cases hbk : (m bestKnownKey).bind maxEstimate with
  | none => simp
  | some p =>
      cases hdv : (m diverseKey).bind maxEstimate with
      | none => simp
      | some q =>
          simp only [Option.elim, decide_eq_true_eq, compareQ_eq_gt_iff, not_lt]
          by_cases hp : p.2 ≤ 0 <;> by_cases hq : 0 < q.2 <;>
            by_cases hk : k = bestKnownKey <;>
              simp [hp, hq, hk, compareQ_eq_gt_iff, not_lt]

/-- C5: equality and hashing of `SearchState` depend solely on the variant
discriminator, never on the ratio payload: two states compare equal exactly
when they are the same variant, and their hash traces agree exactly when
they are the same variant. -/
theorem searchState_eq_hash_ignore_ratio (s t : SearchState) :
    (s.beq t = true ↔ s.discriminant = t.discriminant) ∧
    (∀ pre : List Nat, s.hashTrace pre = t.hashTrace pre ↔
      s.discriminant = t.discriminant) := by
  constructor
  · cases s <;> cases t <;>
      simp [SearchState.beq, SearchState.discriminant, MedianRatio.beq]
  · intro pre
    cases s <;> cases t <;>
      simp [SearchState.hashTrace, SearchState.discriminant,
        MedianRatio.hashTrace, SearchState.ratioOf]

end Rosomaxa

namespace Evolution

lemma runSimple_some_ok {C S : Type} (cfg : RunConfig C S) (fuel : Nat) (c : C)
    (r : Except String (List S × Option Nat)) (h : runSimple cfg fuel c = some r) :
    ∃ v, r = Except.ok v := by
  unfold runSimple at h
  cases hl : runLoop cfg fuel c with
  | none => rw [hl] at h; simp at h
  | some cF =>
      rw [hl] at h
      simp only [Option.map_some', Option.some.injEq] at h
      exact ⟨_, h.symm⟩

/-- C4: whenever the generation loop exits (the fueled loop returns a final
context), the run returns Ok with the telemetry metrics and a solution list
of length at most `desired_amount` that consists of the deep copies of the
first `desired_amount` elements of the final ranked sequence, in order. -/
theorem runSimple_returns_ranked {C S : Type} (cfg : RunConfig C S) (fuel : Nat)
    (c : C) (r : Except String (List S × Option Nat))
    (h : runSimple cfg fuel c = some r) :
    ∃ cF, runLoop cfg fuel c = some cF ∧
      r = Except.ok (((cfg.ranked cF).map cfg.deepCopy).take cfg.desiredAmount,
        cfg.takeMetrics) ∧
      (((cfg.ranked cF).map cfg.deepCopy).take cfg.desiredAmount).length ≤
        cfg.desiredAmount ∧
      ((cfg.ranked cF).map cfg.deepCopy).take cfg.desiredAmount =
        ((cfg.ranked cF).take cfg.desiredAmount).map cfg.deepCopy := by
  unfold runSimple at h
  cases hl : runLoop cfg fuel c with
  | none => rw [hl] at h; simp at h
  | some cF =>
      rw [hl] at h
      simp only [Option.map_some', Option.some.injEq] at h
      refine ⟨cF, rfl, h.symm, List.length_take_le _ _, ?_⟩
      exact (List.map_take _ _ _).symm

/-- Witness for C4 at a concrete configuration whose loop exits at once. -/
theorem runSimple_returns_ranked_witness :
    ∃ cF, runLoop unitRunConfig 1 0 = some cF ∧
      (Except.ok ([7], none) : Except String (List Nat × Option Nat)) =
        Except.ok (((unitRunConfig.ranked cF).map unitRunConfig.deepCopy).take
          unitRunConfig.desiredAmount, unitRunConfig.takeMetrics) ∧
      (((unitRunConfig.ranked cF).map unitRunConfig.deepCopy).take
          unitRunConfig.desiredAmount).length ≤ unitRunConfig.desiredAmount ∧
      ((unitRunConfig.ranked cF).map unitRunConfig.deepCopy).take
          unitRunConfig.desiredAmount =
        ((unitRunConfig.ranked cF).take unitRunConfig.desiredAmount).map
          unitRunConfig.deepCopy :=
  runSimple_returns_ranked unitRunConfig 1 0 (Except.ok ([7], none)) rfl

/-- C6: in every generation, the improved flag is the result of `add_all`
on the offspring, unless the quota has been reached while the population is
non-empty, in which case the add is skipped and the flag is false. -/
theorem generationStep_isImproved {C S : Type} (cfg : RunConfig C S) (c : C) :
    generationStep cfg c =
      if cfg.quotaIsReached c = true ∧ cfg.popSize c ≠ 0 then (c, false)
      else cfg.addAll c (cfg.search c (cfg.select c)) := by
  unfold generationStep shouldAddSolution
  by_cases hq : cfg.quotaIsReached c <;> by_cases hp : cfg.popSize c = 0 <;>
    simp [hq, hp]

/-- C7: constructing the evolution simulator fails with the configuration
error exactly when the list of initial operators is empty, and whenever the
simulator run completes it returns Ok — the error never arises later. -/
theorem simulatorNew_error_iff_empty_operators {C S : Type}
    (cfg : SimulatorConfig C S) :
    ((∃ msg, simulatorNew cfg = Except.error msg) ↔
      cfg.initial.operatorWeights = []) ∧
    (∀ fuel c r, simulatorRun cfg fuel c = some r → ∃ v, r = Except.ok v) := by
  constructor
  · unfold simulatorNew
    by_cases hop : cfg.initial.operatorWeights = [] <;> simp [hop]
  · intro fuel c r h
    simp only [simulatorRun] at h
    exact runSimple_some_ok cfg.runCfg fuel _ r h

/-- Witness for C7 at a concrete simulator configuration with one initial
operator. -/
theorem simulatorNew_error_iff_empty_operators_witness :
    ((∃ msg, simulatorNew unitSimConfig = Except.error msg) ↔
      unitSimConfig.initial.operatorWeights = []) ∧
    (∃ v, (Except.ok ([7], none) : Except String (List Nat × Option Nat)) =
      Except.ok v) := by
  have h := simulatorNew_error_iff_empty_operators unitSimConfig
  exact ⟨h.1, h.2 1 0 (Except.ok ([7], none)) rfl⟩

/-- Counterexample to C8: a configuration with `max_size` zero and one
initial operator is accepted by the simulator constructor — no configuration
error is raised for a non-positive `max_size`. -/
theorem simulatorNew_zero_max_size_succeeds :
    unitSimConfig.initial.maxSize = 0 ∧
    simulatorNew unitSimConfig = Except.ok unitSimConfig := by
  refine ⟨rfl, ?_⟩
  simp [simulatorNew, unitSimConfig]

/-- C8 amended: for every configuration whose `initial.max_size` is zero,
creating the evolution simulator nevertheless succeeds exactly when at least
one initial operator is present — `max_size` itself is not validated. -/
theorem simulatorNew_zero_max_size_amended {C S : Type} (cfg : SimulatorConfig C S)
    (_h : cfg.initial.maxSize = 0) :
    simulatorNew cfg = Except.ok cfg ↔ cfg.initial.operatorWeights ≠ [] := by
  unfold simulatorNew
  by_cases hop : cfg.initial.operatorWeights = [] <;> simp [hop]

/-- Witness for the amended C8 at the concrete zero-size configuration. -/
theorem simulatorNew_zero_max_size_amended_witness :
    simulatorNew unitSimConfig = Except.ok unitSimConfig ↔
      unitSimConfig.initial.operatorWeights ≠ [] :=
  simulatorNew_zero_max_size_amended unitSimConfig rfl

end Evolution

namespace Checker

lemma checkToursLoop_ne_ok (t : TourInfo) (rest : List TourInfo) :
    checkToursLoop (t :: rest) ≠ CheckOutcome.ok := by
  cases h : checkStopDemand t <;> simp [checkToursLoop, h]

lemma checkJobPresence_empty_tours (s : SolutionInfo) (h : s.tours = []) :
    checkJobPresence s = Except.ok () ↔
      (distinctJobIds s).length = s.jobs.length := by
  unfold checkJobPresence
  rw [h]
  simp only [List.foldlM_nil, pure, Except.pure, bind, Except.bind, distinctJobIds]
  split_ifs with h1 h2 <;> simp <;> omega

/-- C10: the checker returns Ok exactly for solutions with an empty tour
list whose distinct unassigned job ids match the problem job count; for a
solution with at least one tour, when the job-presence check and the
stop-demand check of the first tour both pass, control reaches the
unimplemented time-window check and panics. -/
theorem checkJobs_spec (s : SolutionInfo) :
    (checkJobs s = CheckOutcome.ok ↔
      s.tours = [] ∧ (distinctJobIds s).length = s.jobs.length) ∧
    (∀ t rest, s.tours = t :: rest → checkJobPresence s = Except.ok () →
      checkStopDemand t = Except.ok () → checkJobs s = CheckOutcome.panicked) := by
  constructor
  · constructor
    · intro h
      unfold checkJobs at h
      cases hp : checkJobPresence s with
      | error e => rw [hp] at h; simp at h
      | ok u =>
          rw [hp] at h
          cases ht : s.tours with
          | nil =>
              cases u
              exact ⟨rfl, (checkJobPresence_empty_tours s ht).mp hp⟩
          | cons t rest =>
              rw [ht] at h
              exact absurd h (checkToursLoop_ne_ok t rest)
    · rintro ⟨ht, hlen⟩
      have hp : checkJobPresence s = Except.ok () :=
        (checkJobPresence_empty_tours s ht).mpr hlen
      unfold checkJobs
      rw [hp, ht]
      rfl
  · intro t rest ht hp hd
    simp [checkJobs, hp, ht, checkToursLoop, hd]

/-- Witness for C10 at a concrete one-tour solution that passes the presence
and stop-demand checks. -/
theorem checkJobs_spec_witness :
    exampleSolution.tours = exampleTour :: [] ∧
    checkJobPresence exampleSolution = Except.ok () ∧
    checkStopDemand exampleTour = Except.ok () ∧
    checkJobs exampleSolution = CheckOutcome.panicked :=
  ⟨rfl, rfl, rfl,
    (checkJobs_spec exampleSolution).2 exampleTour [] rfl rfl rfl⟩

end Checker
